import Mathlib

/-!
Shallow embedding of the whisper-rs binding (the Rust crate under `src/`),
covering the conversion utilities, the decoding-state pipeline methods, the
segment accessors and iterator, and the VAD segments container.

Modelling conventions:
* Rust slices become `List`s; `f32` values become `ℚ` (every operation the
  claims quantify over is either exact in `f32` — an `i16` cast and a division
  by the power of two `32768.0` — or is stated as the very expression the code
  computes, so the rational embedding is faithful to the data flow).
* `usize` becomes `Nat`; C `c_int` becomes `Int`, with the `usize as c_int`
  cast modelled explicitly by `toCInt` where a claim mentions the passed value.
* The external engine (whisper.cpp) is modelled as explicit parameters: its
  integer return code, and functions giving its per-index answers.  Each
  pipeline wrapper records whether the engine was invoked.
* A Rust function mutating an `&mut [f32]` output buffer is modelled as
  returning the final contents of that buffer next to its `Result`.
-/

namespace WhisperRs

/-- The crate's error taxonomy (`WhisperError`). Its defining module is not
under `src/`; the constructors and payloads are modelled from the spec's
error-taxonomy section and from their uses in `src/src/utilities.rs` and
`src/src/whisper_state.rs`. -/
inductive WhisperError where
  | InitError
  | NullPointer
  | InvalidUtf8
  | InputOutputLengthMismatch (input_len output_len : Nat)
  | HalfSampleMissing (len : Nat)
  | InvalidThreadCount
  | InvalidMelBands
  | UnableToCalculateSpectrogram
  | UnableToCalculateEvaluation
  | FailedToEncode
  | FailedToDecode
  | NoSamples
  | GenericError (n : Int)
  deriving DecidableEq, Repr

instance {ε α : Type} [DecidableEq ε] [DecidableEq α] : DecidableEq (Except ε α) :=
  fun a b =>
  match a, b with
  | .error e1, .error e2 =>
      if h : e1 = e2 then .isTrue (by rw [h]) else .isFalse fun hc => h (Except.error.inj hc)
  | .error _, .ok _ => .isFalse fun hc => Except.noConfusion hc
  | .ok _, .error _ => .isFalse fun hc => Except.noConfusion hc
  | .ok v1, .ok v2 =>
      if h : v1 = v2 then .isTrue (by rw [h]) else .isFalse fun hc => h (Except.ok.inj hc)

/-- Result of a conversion utility: the `Result<(), WhisperError>` it returns
together with the final contents of the `&mut` output buffer. -/
structure ConvResult where
  result : Except WhisperError Unit
  output : List ℚ
  deriving DecidableEq, Repr

/-- Embeds `convert_integer_to_float_audio` from `src/src/utilities.rs`.
Checks `samples.len() != output.len()`, then writes
`*output = *input as f32 / 32768.0` over `samples.iter().zip(output.iter_mut())`;
with equal lengths the zip covers the whole output buffer. -/
def convert_integer_to_float_audio (samples : List Int) (output : List ℚ) :
    ConvResult :=
  if samples.length ≠ output.length then
    { result := .error (.InputOutputLengthMismatch samples.length output.length)
      output := output }
  else
    { result := .ok ()
      output := samples.map (fun (x : Int) => (x : ℚ) / 32768) }

/-- The chunking done by `input.as_chunks::<2>()`: the maximal prefix of
adjacent pairs.  The remainder is empty exactly when the length is even. -/
def toPairs : List α → List (α × α)
  | a :: b :: rest => (a, b) :: toPairs rest
  | _ => []

/-- Embeds `convert_stereo_to_mono_audio` from `src/src/utilities.rs`.
`let (input, []) = input.as_chunks::<2>() else { return Err(HalfSampleMissing(input.len())) }`
(the `else` branch sees the original slice), then compares `output.len()`
against the chunk count, reporting the chunk count as `input_len`, then writes
`(left + right) / 2.0` pairwise. -/
def convert_stereo_to_mono_audio (input : List ℚ) (output : List ℚ) :
    ConvResult :=
  if input.length % 2 ≠ 0 then
    { result := .error (.HalfSampleMissing input.length), output := output }
  else if output.length ≠ (toPairs input).length then
    { result := .error
        (.InputOutputLengthMismatch (toPairs input).length output.length)
      output := output }
  else
    { result := .ok ()
      output := (toPairs input).map (fun p => (p.1 + p.2) / 2) }

/-- The cast `usize as c_int`: truncation of a `Nat` to a signed 32-bit integer. -/
def toCInt (n : Nat) : Int :=
  let m : Int := (n : Int) % 2 ^ 32
  if m < 2 ^ 31 then m else m - 2 ^ 32

/-- Outcome of a pipeline method on `WhisperState`: whether the engine entry
point was reached (a `false` also means the state's engine buffers were left
untouched), and the method's `Result`. -/
structure EngineCall (α : Type) where
  engineInvoked : Bool
  result : Except WhisperError α
  deriving Repr

/-- Embeds `WhisperState::full` from `src/src/whisper_state.rs`. The engine's return
code from `whisper_full_with_state` is the parameter `engineRet`; it is only
consulted when the engine is actually invoked. -/
def full (engineRet : Int) (data : List ℚ) : EngineCall Int :=
  if data.isEmpty then
    -- can randomly trigger segmentation faults if we don't check this
    { engineInvoked := false, result := .error .NoSamples }
  else
    { engineInvoked := true
      result :=
        if engineRet = -1 then .error .UnableToCalculateSpectrogram
        else if engineRet = 7 then .error .FailedToEncode
        else if engineRet = 8 then .error .FailedToDecode
        else if engineRet = 0 then .ok engineRet
        else .error (.GenericError engineRet) }

/-- Embeds `WhisperState::pcm_to_mel`: `threads: usize` is checked against 1 before
the engine call `whisper_pcm_to_mel_with_state`. -/
def pcm_to_mel (pcm : List ℚ) (threads : Nat) (engineRet : Int) :
    EngineCall Unit :=
  if threads < 1 then
    { engineInvoked := false, result := .error .InvalidThreadCount }
  else
    { engineInvoked := true
      result :=
        if engineRet = -1 then .error .UnableToCalculateSpectrogram
        else if engineRet = 0 then .ok ()
        else .error (.GenericError engineRet) }

/-- Embeds `WhisperState::encode`: thread check, then `whisper_encode_with_state`. -/
def encode (offset : Nat) (threads : Nat) (engineRet : Int) :
    EngineCall Unit :=
  if threads < 1 then
    { engineInvoked := false, result := .error .InvalidThreadCount }
  else
    { engineInvoked := true
      result :=
        if engineRet = -1 then .error .UnableToCalculateEvaluation
        else if engineRet = 0 then .ok ()
        else .error (.GenericError engineRet) }

/-- Embeds `WhisperState::decode`: thread check, then `whisper_decode_with_state`. -/
def decode (tokens : List Int) (n_past : Nat) (threads : Nat)
    (engineRet : Int) : EngineCall Unit :=
  if threads < 1 then
    { engineInvoked := false, result := .error .InvalidThreadCount }
  else
    { engineInvoked := true
      result :=
        if engineRet = -1 then .error .UnableToCalculateEvaluation
        else if engineRet = 0 then .ok ()
        else .error (.GenericError engineRet) }

/-- Embeds `WhisperState::lang_detect`: thread check, then
`whisper_lang_auto_detect_with_state` writes into a probability buffer
(engine-filled contents modelled by `langProbs`) and returns the detected
language id, negative on failure. -/
def lang_detect (offset_ms : Nat) (threads : Nat) (engineRet : Int)
    (langProbs : List ℚ) : EngineCall (Int × List ℚ) :=
  if threads < 1 then
    { engineInvoked := false, result := .error .InvalidThreadCount }
  else
    { engineInvoked := true
      result :=
        if engineRet < 0 then .error (.GenericError engineRet)
        else .ok (engineRet, langProbs) }

/-- What `WhisperState::set_mel` hands to `whisper_set_mel_with_state`,
next to its `Result`. -/
structure SetMelCall where
  n_len_passed : Int
  n_mel_passed : Int
  result : Except WhisperError Unit
  deriving Repr

/-- Embeds `WhisperState::set_mel` from `src/src/whisper_state.rs`:
`let hop_size = 160; let n_len = (data.len() / hop_size) * 2;` then the engine
is called with `n_len as c_int` and `80 as c_int`. -/
def set_mel (data : List ℚ) (engineRet : Int) : SetMelCall :=
  let hop_size := 160
  let n_len := (data.length / hop_size) * 2
  { n_len_passed := toCInt n_len
    n_mel_passed := 80
    result :=
      if engineRet = -1 then .error .InvalidMelBands
      else if engineRet = 0 then .ok ()
      else .error (.GenericError engineRet) }

/-- A segment view: the pair `(segment_idx, token_count)` cached at
construction by `WhisperSegment` in `src/src/whisper_state/segment.rs`. -/
structure WhisperSegment where
  segment_idx : Int
  token_count : Int
  deriving DecidableEq, Repr

/-- Embeds `WhisperState::segment_in_bounds`: `segment >= 0 && segment < self.full_n_segments()`.
The live engine answer `whisper_full_n_segments_from_state` is the parameter `n`. -/
def segment_in_bounds (n segment : Int) : Bool :=
  decide (0 ≤ segment) && decide (segment < n)

/-- Embeds `WhisperSegment::new_unchecked`: `assert!(state.segment_in_bounds(segment_idx), ..)`,
then the token count is fetched once from the engine (`tc`).  A panic of the
`assert!` is modelled as `Except.error` carrying the panic message. -/
def WhisperSegment.new_unchecked (n : Int) (tc : Int → Int)
    (segment_idx : Int) : Except String WhisperSegment :=
  if segment_in_bounds n segment_idx then
    .ok { segment_idx := segment_idx, token_count := tc segment_idx }
  else
    .error "tried to create a WhisperSegment out of bounds for linked state"

/-- Embeds `WhisperState::get_segment`: `segment_in_bounds(segment).then(|| new_unchecked(..))`.
Inside the guard the assert of `new_unchecked` cannot fire, so its value is
taken (`toOption`). -/
def get_segment (n : Int) (tc : Int → Int) (segment : Int) :
    Option WhisperSegment :=
  if segment_in_bounds n segment then
    (WhisperSegment.new_unchecked n tc segment).toOption
  else
    none

/-- Embeds `WhisperState::get_segment_unchecked`: calls `WhisperSegment::new_unchecked`
directly (whose assert still fires out of bounds). -/
def get_segment_unchecked (n : Int) (tc : Int → Int) (segment : Int) :
    Except String WhisperSegment :=
  WhisperSegment.new_unchecked n tc segment

/-- Runs a cursor-style iterator whose `next` is `get cur; cur += 1`, stopping
at the first `none`, as `WhisperStateSegmentIterator::next` and
`WhisperVadSegments::next` both do.  `fuel` bounds the number of `next` calls;
any fuel at least the yield count gives the full yielded sequence. -/
def collectIter (get : Int → Option α) (cur : Int) : Nat → List α
  | 0 => []
  | fuel + 1 =>
    match get cur with
    | none => []
    | some x => x :: collectIter get (cur + 1) fuel

/-- The sequence yielded by `WhisperStateSegmentIterator` started by
`WhisperState::as_iter` at `current_segment = 0`. -/
def as_iter_yields (n : Int) (tc : Int → Int) (fuel : Nat) :
    List WhisperSegment :=
  collectIter (get_segment n tc) 0 fuel

/-- A VAD segment: the `{start, end}` pair (centiseconds) of
`WhisperVadSegment` in `src/src/whisper_vad.rs` (`end` is a reserved word
here, hence `end_`). -/
structure WhisperVadSegment where
  start : ℚ
  end_ : ℚ
  deriving DecidableEq, Repr

/-- Embeds `WhisperVadSegments::index_in_bounds`: `idx >= 0 && idx < self.segment_count`,
against the count cached at construction. -/
def vad_index_in_bounds (count idx : Int) : Bool :=
  decide (0 ≤ idx) && decide (idx < count)

/-- Embeds `WhisperVadSegments::get_segment_start_timestamp`; the engine answer
`whisper_vad_segments_get_segment_t0` is the function `t0`. -/
def get_segment_start_timestamp (count : Int) (t0 : Int → ℚ) (idx : Int) :
    Option ℚ :=
  if vad_index_in_bounds count idx then some (t0 idx) else none

/-- Embeds `WhisperVadSegments::get_segment_end_timestamp`; the engine answer
`whisper_vad_segments_get_segment_t1` is the function `t1`. -/
def get_segment_end_timestamp (count : Int) (t1 : Int → ℚ) (idx : Int) :
    Option ℚ :=
  if vad_index_in_bounds count idx then some (t1 idx) else none

/-- Embeds `WhisperVadSegments::get_segment`: both timestamps via `?`, combined. -/
def vad_get_segment (count : Int) (t0 t1 : Int → ℚ) (idx : Int) :
    Option WhisperVadSegment :=
  (get_segment_start_timestamp count t0 idx).bind fun s =>
    (get_segment_end_timestamp count t1 idx).map fun e =>
      { start := s, end_ := e }

/-- The sequence yielded by iterating `WhisperVadSegments` from its initial
cursor `iter_idx = 0`. -/
def vad_iter_yields (count : Int) (t0 t1 : Int → ℚ) (fuel : Nat) :
    List WhisperVadSegment :=
  collectIter (vad_get_segment count t0 t1) 0 fuel

/-- A concrete engine token-count function, used to instantiate theorems. -/
def tcW : Int → Int := fun j => j + 10

/-- A concrete engine start-timestamp function, used to instantiate theorems. -/
def t0W : Int → ℚ := fun i => (i : ℚ)

/-- A concrete engine end-timestamp function, used to instantiate theorems. -/
def t1W : Int → ℚ := fun i => (i : ℚ) + 1

theorem toPairs_length : ∀ (xs : List α), (toPairs xs).length = xs.length / 2
  | [] => by simp [toPairs]
  | [_] => by simp [toPairs]
  | _ :: _ :: rest => by
      simp only [toPairs, List.length_cons, toPairs_length rest]
      omega

theorem toPairs_getElem? : ∀ (xs : List α) (i : Nat),
    (toPairs xs)[i]? = xs[2 * i]?.bind fun a => xs[2 * i + 1]?.map fun b => (a, b)
  | [], i => by simp [toPairs]
  | [a], i => by
      have h1 : 2 * i + 1 ≠ 0 := by omega
      cases i with
      | zero => simp [toPairs]
      | succ n => simp [toPairs, List.getElem?_cons_succ]
  | a :: b :: rest, 0 => by simp [toPairs]
  | a :: b :: rest, i + 1 => by
      have ih := toPairs_getElem? rest i
      have h2 : 2 * (i + 1) = 2 * i + 1 + 1 := by omega
      simp only [toPairs, List.getElem?_cons_succ, h2, ih]

theorem get_segment_eq (n : Int) (tc : Int → Int) (i : Int) :
    get_segment n tc i =
      if 0 ≤ i ∧ i < n then some ⟨i, tc i⟩ else none := by
  unfold get_segment WhisperSegment.new_unchecked segment_in_bounds
  by_cases h1 : 0 ≤ i <;> by_cases h2 : i < n <;>
    simp [h1, h2, Except.toOption]

theorem vad_get_segment_eq (count : Int) (t0 t1 : Int → ℚ) (i : Int) :
    vad_get_segment count t0 t1 i =
      if 0 ≤ i ∧ i < count then some ⟨t0 i, t1 i⟩ else none := by
  unfold vad_get_segment get_segment_start_timestamp get_segment_end_timestamp
    vad_index_in_bounds
  by_cases h1 : 0 ≤ i <;> by_cases h2 : i < count <;> simp [h1, h2]

theorem collectIter_bounded {α : Type} (n : Int) (get : Int → Option α)
    (f : Int → α)
    (hget : ∀ i, get i = if 0 ≤ i ∧ i < n then some (f i) else none) :
    ∀ (fuel : Nat) (cur : Int), 0 ≤ cur → (n - cur).toNat ≤ fuel →
      collectIter get cur fuel =
        (List.range (n - cur).toNat).map (fun k => f (cur + Int.ofNat k))
  | 0, cur, _, hfuel => by
      have h0 : (n - cur).toNat = 0 := Nat.le_zero.mp hfuel
      simp [collectIter, h0]
  | fuel + 1, cur, hcur, hfuel => by
      by_cases hlt : cur < n
      · have hg := hget cur
        rw [if_pos ⟨hcur, hlt⟩] at hg
        have hstep : (n - cur).toNat = (n - (cur + 1)).toNat + 1 := by omega
        have ih := collectIter_bounded n get f hget fuel (cur + 1)
          (by omega) (by omega)
        simp only [collectIter, hg, ih, hstep, List.range_succ_eq_map,
          List.map_cons, List.map_map]
        congr 1
        · norm_num
        · refine List.map_congr_left fun k _ => ?_
          simp only [Function.comp_apply]
          congr 1
          simp only [Int.ofNat_eq_coe]
          push_cast
          ring
      · have hg := hget cur
        rw [if_neg (fun hb => hlt hb.2)] at hg
        have h0 : (n - cur).toNat = 0 := by omega
        simp [collectIter, hg, h0]

/-- C1: `full(params, pcm)` on an empty pcm slice returns `NoSamples` without
invoking the engine; otherwise the engine is invoked and its integer return is
mapped exactly as: −1 ↦ `UnableToCalculateSpectrogram`, 7 ↦ `FailedToEncode`,
8 ↦ `FailedToDecode`, 0 ↦ success, any other non-zero `n` ↦ `GenericError n`. -/
theorem full_empty_nosamples_and_return_mapping (engineRet : Int) (x : ℚ)
    (xs : List ℚ) :
    full engineRet [] =
      { engineInvoked := false, result := .error .NoSamples }
    ∧ (full engineRet (x :: xs)).engineInvoked = true
    ∧ (full engineRet (x :: xs)).result =
        (if engineRet = -1 then .error .UnableToCalculateSpectrogram
         else if engineRet = 7 then .error .FailedToEncode
         else if engineRet = 8 then .error .FailedToDecode
         else if engineRet = 0 then .ok engineRet
         else .error (.GenericError engineRet)) := by
  refine ⟨rfl, ?_, ?_⟩ <;> simp [full]

/-- C2: with equal-length `samples` and `output`, the integer→float conversion
succeeds and every output element is the corresponding sample divided by
32768. -/
theorem convert_integer_to_float_audio_ok (samples : List Int)
    (output : List ℚ) (h : samples.length = output.length) (i : Nat) :
    (convert_integer_to_float_audio samples output).result = .ok ()
    ∧ (convert_integer_to_float_audio samples output).output[i]? =
        samples[i]?.map (fun (x : Int) => (x : ℚ) / 32768) := by
  unfold convert_integer_to_float_audio
  rw [if_neg (by omega)]
  exact ⟨rfl, by simp⟩

/-- Witness for C2: samples `[1, -2]` into a length-2 buffer. -/
theorem convert_integer_to_float_audio_ok_witness :
    ([1, -2] : List Int).length = ([0, 0] : List ℚ).length
    ∧ ((convert_integer_to_float_audio [1, -2] [0, 0]).result = .ok ()
       ∧ (convert_integer_to_float_audio [1, -2] [0, 0]).output[1]? =
           ([1, -2] : List Int)[1]?.map (fun (x : Int) => (x : ℚ) / 32768)) :=
  ⟨by decide, convert_integer_to_float_audio_ok [1, -2] [0, 0] (by decide) 1⟩

/-- C3: with an even-length `input` and `output` of half that length, the
stereo→mono conversion succeeds and every output element is the average of the
corresponding adjacent input pair. -/
theorem convert_stereo_to_mono_audio_ok (input output : List ℚ)
    (h2 : input.length % 2 = 0) (hlen : output.length = input.length / 2)
    (i : Nat) :
    (convert_stereo_to_mono_audio input output).result = .ok ()
    ∧ (convert_stereo_to_mono_audio input output).output[i]? =
        (input[2 * i]?.bind fun l =>
          input[2 * i + 1]?.map fun r => (l + r) / 2) := by
  unfold convert_stereo_to_mono_audio
  rw [if_neg (by omega), if_neg (by rw [toPairs_length]; omega)]
  refine ⟨rfl, ?_⟩
  simp only [List.getElem?_map, toPairs_getElem?]
  cases input[2 * i]? <;> cases input[2 * i + 1]? <;> simp

/-- Witness for C3: input `[1, 3, 5, 9]` into a length-2 buffer. -/
theorem convert_stereo_to_mono_audio_ok_witness :
    ([1, 3, 5, 9] : List ℚ).length % 2 = 0
    ∧ ([0, 0] : List ℚ).length = ([1, 3, 5, 9] : List ℚ).length / 2
    ∧ ((convert_stereo_to_mono_audio [1, 3, 5, 9] [0, 0]).result = .ok ()
       ∧ (convert_stereo_to_mono_audio [1, 3, 5, 9] [0, 0]).output[0]? =
           (([1, 3, 5, 9] : List ℚ)[2 * 0]?.bind fun l =>
             ([1, 3, 5, 9] : List ℚ)[2 * 0 + 1]?.map fun r => (l + r) / 2)) :=
  ⟨by decide, by decide,
   convert_stereo_to_mono_audio_ok [1, 3, 5, 9] [0, 0] (by decide) (by decide) 0⟩

/-- C4 counterexample: on the even input `[0,0,0,0]` (length 4) with output
`[0]` (length 1), stereo→mono reports `InputOutputLengthMismatch 2 1` — the
pair count, not the actual input slice length 4 the claim requires. -/
theorem mismatch_carries_pair_count_counterexample :
    (convert_stereo_to_mono_audio [0, 0, 0, 0] [0]).result =
      .error (.InputOutputLengthMismatch 2 1)
    ∧ (convert_stereo_to_mono_audio [0, 0, 0, 0] [0]).result ≠
        .error (.InputOutputLengthMismatch 4 1) := by
  constructor <;> decide

/-- C4 (amended): on mismatched lengths both conversions fail with
`InputOutputLengthMismatch` and leave the output untouched; integer→float
carries the actual input and output lengths, while stereo→mono carries the
stereo pair count `input.len() / 2` together with the actual output length. -/
theorem mismatch_errors_do_not_write (samples : List Int) (outF : List ℚ)
    (input outS : List ℚ) (h1 : samples.length ≠ outF.length)
    (h2 : input.length % 2 = 0) (h3 : outS.length ≠ input.length / 2) :
    convert_integer_to_float_audio samples outF =
      { result := .error
          (.InputOutputLengthMismatch samples.length outF.length)
        output := outF }
    ∧ convert_stereo_to_mono_audio input outS =
      { result := .error
          (.InputOutputLengthMismatch (input.length / 2) outS.length)
        output := outS } := by
  constructor
  · unfold convert_integer_to_float_audio
    rw [if_pos h1]
  · unfold convert_stereo_to_mono_audio
    rw [if_neg (by omega)]
    simp only [toPairs_length]
    rw [if_pos h3]

/-- Witness for the amended C4: `[1]` vs `[]`, and `[0,0,0,0]` vs `[0]`. -/
theorem mismatch_errors_do_not_write_witness :
    ([1] : List Int).length ≠ ([] : List ℚ).length
    ∧ ([0, 0, 0, 0] : List ℚ).length % 2 = 0
    ∧ ([0] : List ℚ).length ≠ ([0, 0, 0, 0] : List ℚ).length / 2
    ∧ (convert_integer_to_float_audio [1] [] =
        { result := .error (.InputOutputLengthMismatch 1 0), output := [] }
       ∧ convert_stereo_to_mono_audio [0, 0, 0, 0] [0] =
        { result := .error (.InputOutputLengthMismatch 2 1), output := [0] }) :=
  ⟨by decide, by decide, by decide,
   mismatch_errors_do_not_write [1] [] [0, 0, 0, 0] [0]
     (by decide) (by decide) (by decide)⟩

/-- C5: on an odd-length input, stereo→mono fails with `HalfSampleMissing`
carrying the input slice's actual length and leaves the output untouched. -/
theorem odd_input_half_sample_missing (input output : List ℚ)
    (h : input.length % 2 = 1) :
    convert_stereo_to_mono_audio input output =
      { result := .error (.HalfSampleMissing input.length)
        output := output } := by
  unfold convert_stereo_to_mono_audio
  rw [if_pos (by omega)]

/-- Witness for C5: the odd input `[0, 0, 0]`. -/
theorem odd_input_half_sample_missing_witness :
    ([0, 0, 0] : List ℚ).length % 2 = 1
    ∧ convert_stereo_to_mono_audio [0, 0, 0] [0] =
        { result := .error (.HalfSampleMissing 3), output := [0] } :=
  ⟨by decide, odd_input_half_sample_missing [0, 0, 0] [0] (by decide)⟩

/-- C6: `get_segment i` is `some` exactly when `0 ≤ i < full_n_segments` (and
then carries that index with its fetched token count), and the iterator
obtained from `as_iter` yields exactly `full_n_segments` segment views in
ascending index order starting at 0. -/
theorem get_segment_bounds_and_iter (n : Int) (tc : Int → Int) (i : Int)
    (fuel : Nat) (hf : n.toNat ≤ fuel) :
    (get_segment n tc i = if 0 ≤ i ∧ i < n then some ⟨i, tc i⟩ else none)
    ∧ as_iter_yields n tc fuel =
        (List.range n.toNat).map
          (fun k => ⟨Int.ofNat k, tc (Int.ofNat k)⟩) := by
  refine ⟨get_segment_eq n tc i, ?_⟩
  unfold as_iter_yields
  have h := collectIter_bounded n (get_segment n tc)
    (fun j => ⟨j, tc j⟩) (get_segment_eq n tc) fuel 0 le_rfl (by omega)
  rw [h]
  simp

/-- Witness for C6: a state reporting 2 segments, iterated with fuel 3. -/
theorem get_segment_bounds_and_iter_witness :
    (2 : Int).toNat ≤ 3
    ∧ ((get_segment 2 tcW 1 =
          if 0 ≤ (1 : Int) ∧ (1 : Int) < 2 then some ⟨1, tcW 1⟩ else none)
       ∧ as_iter_yields 2 tcW 3 =
           (List.range (2 : Int).toNat).map
             (fun k => ⟨Int.ofNat k, tcW (Int.ofNat k)⟩)) :=
  ⟨by decide, get_segment_bounds_and_iter 2 tcW 1 3 (by decide)⟩

/-- C7: a thread count below 1 makes `pcm_to_mel`, `encode`, `decode` and
`lang_detect` return `InvalidThreadCount` immediately, without invoking the
engine (hence without touching the state's engine buffers). -/
theorem thread_count_validation (threads : Nat) (ht : threads < 1)
    (pcm : List ℚ) (engineRet : Int) (offset : Nat) (tokens : List Int)
    (n_past : Nat) (offset_ms : Nat) (langProbs : List ℚ) :
    pcm_to_mel pcm threads engineRet =
      { engineInvoked := false, result := .error .InvalidThreadCount }
    ∧ encode offset threads engineRet =
      { engineInvoked := false, result := .error .InvalidThreadCount }
    ∧ decode tokens n_past threads engineRet =
      { engineInvoked := false, result := .error .InvalidThreadCount }
    ∧ lang_detect offset_ms threads engineRet langProbs =
      { engineInvoked := false, result := .error .InvalidThreadCount } := by
  unfold pcm_to_mel encode decode lang_detect
  simp [if_pos ht]
  omega

/-- Witness for C7: thread count 0 on each of the four methods. -/
theorem thread_count_validation_witness :
    0 < 1
    ∧ (pcm_to_mel [0] 0 5 =
        { engineInvoked := false, result := .error .InvalidThreadCount }
       ∧ encode 0 0 5 =
        { engineInvoked := false, result := .error .InvalidThreadCount }
       ∧ decode [3] 0 0 5 =
        { engineInvoked := false, result := .error .InvalidThreadCount }
       ∧ lang_detect 0 0 5 [0] =
        { engineInvoked := false, result := .error .InvalidThreadCount }) :=
  ⟨by decide, thread_count_validation 0 (by decide) [0] 5 0 [3] 0 0 [0]⟩

theorem toCInt_of_lt (n : Nat) (h : n < 2 ^ 31) : toCInt n = n := by
  unfold toCInt
  have h1 : (n : Int) % 2 ^ 32 = n := by omega
  simp only [h1]
  rw [if_pos (by exact_mod_cast h)]

/-- C8: `set_mel` passes `n_len = (data.len() / 160) * 2` and 80 mel bins to
the engine (stated below the `c_int` range, where the cast is the identity),
and maps the engine return −1 ↦ `InvalidMelBands`, 0 ↦ success, and any other
`n` ↦ `GenericError n`. -/
theorem set_mel_frames_and_mapping (data : List ℚ) (engineRet : Int)
    (h : data.length / 160 * 2 < 2 ^ 31) :
    (set_mel data engineRet).n_len_passed = (data.length / 160 * 2 : Nat)
    ∧ (set_mel data engineRet).n_mel_passed = 80
    ∧ (set_mel data engineRet).result =
        (if engineRet = -1 then .error .InvalidMelBands
         else if engineRet = 0 then .ok ()
         else .error (.GenericError engineRet)) := by
  refine ⟨?_, rfl, rfl⟩
  simp only [set_mel]
  exact toCInt_of_lt _ h

/-- Witness for C8: a one-sample buffer, so `n_len = (1 / 160) * 2 = 0`. -/
theorem set_mel_frames_and_mapping_witness :
    ([0] : List ℚ).length / 160 * 2 < 2 ^ 31
    ∧ ((set_mel [0] 3).n_len_passed = (([0] : List ℚ).length / 160 * 2 : Nat)
       ∧ (set_mel [0] 3).n_mel_passed = 80
       ∧ (set_mel [0] 3).result =
           (if (3 : Int) = -1 then .error .InvalidMelBands
            else if (3 : Int) = 0 then .ok ()
            else .error (.GenericError 3))) :=
  ⟨by decide, set_mel_frames_and_mapping [0] 3 (by decide)⟩

/-- C9: iterating a VAD segments container with cached count `count ≥ 0`
yields exactly `num_segments()` items, in ascending index order starting at 0,
each carrying the `{start, end}` pair the engine reported for that index; when
every engine-reported pair satisfies `start ≤ end`, so does every item. -/
theorem vad_segments_iteration (count : Int) (t0 t1 : Int → ℚ) (fuel : Nat)
    (hc : 0 ≤ count) (hf : count.toNat ≤ fuel)
    (ht : ∀ i : Int, 0 ≤ i → i < count → t0 i ≤ t1 i) :
    vad_iter_yields count t0 t1 fuel =
      (List.range count.toNat).map
        (fun k => ⟨t0 (Int.ofNat k), t1 (Int.ofNat k)⟩)
    ∧ ((vad_iter_yields count t0 t1 fuel).length : Int) = count
    ∧ (vad_iter_yields count t0 t1 fuel).all
        (fun s => decide (s.start ≤ s.end_)) = true := by
  have hcoll : vad_iter_yields count t0 t1 fuel =
      (List.range count.toNat).map
        (fun k => ⟨t0 (Int.ofNat k), t1 (Int.ofNat k)⟩) := by
    unfold vad_iter_yields
    have h := collectIter_bounded count (vad_get_segment count t0 t1)
      (fun j => ⟨t0 j, t1 j⟩) (vad_get_segment_eq count t0 t1) fuel 0
      le_rfl (by omega)
    rw [h]
    simp
  refine ⟨hcoll, ?_, ?_⟩
  · rw [hcoll]
    simp
    omega
  · rw [hcoll, List.all_eq_true]
    intro s hs
    rw [List.mem_map] at hs
    obtain ⟨k, hk, rfl⟩ := hs
    rw [List.mem_range] at hk
    simp only [decide_eq_true_eq]
    refine ht (Int.ofNat k) ?_ ?_ <;> simp only [Int.ofNat_eq_coe] <;> omega

/-- Witness for C9: an engine reporting 2 segments with `start = i`,
`end = i + 1`. -/
theorem vad_segments_iteration_witness :
    (0 : Int) ≤ 2 ∧ (2 : Int).toNat ≤ 2
    ∧ (vad_iter_yields 2 t0W t1W 2 =
        (List.range (2 : Int).toNat).map
          (fun k => ⟨t0W (Int.ofNat k), t1W (Int.ofNat k)⟩)
       ∧ ((vad_iter_yields 2 t0W t1W 2).length : Int) = 2
       ∧ (vad_iter_yields 2 t0W t1W 2).all
           (fun s => decide (s.start ≤ s.end_)) = true) :=
  ⟨by decide, by decide,
   vad_segments_iteration 2 t0W t1W 2 (by decide) (by decide)
     (fun i _ _ => by
       unfold t0W t1W
       linarith)⟩

/-- C10: the construction path shared by `get_segment` and
`get_segment_unchecked` asserts the bound: in bounds, the unchecked accessor
yields the segment view at that index; out of bounds, it panics (asserts)
instead of producing a view, so every constructed `WhisperSegment` has its
index in bounds for its state. -/
theorem unchecked_segment_asserts_bounds (n : Int) (tc : Int → Int)
    (idx : Int) :
    (0 ≤ idx ∧ idx < n
      ∧ get_segment_unchecked n tc idx = .ok ⟨idx, tc idx⟩)
    ∨ (¬(0 ≤ idx ∧ idx < n)
      ∧ get_segment_unchecked n tc idx =
          .error "tried to create a WhisperSegment out of bounds for linked state") := by
  unfold get_segment_unchecked WhisperSegment.new_unchecked
  by_cases hb : segment_in_bounds n idx = true
  · have hp : 0 ≤ idx ∧ idx < n := by
      simpa [segment_in_bounds] using hb
    exact Or.inl ⟨hp.1, hp.2, by rw [if_pos hb]⟩
  · have hp : ¬(0 ≤ idx ∧ idx < n) := by
      intro hc
      exact hb (by simp [segment_in_bounds, hc.1, hc.2])
    exact Or.inr ⟨hp, by rw [if_neg (by simpa using hb)]⟩
